import Mathlib

/-!
Verification of the `scripted-lab` echo script (`src/echo.py`).

The script's `main` does, in order:
1. `data = json.load(sys.stdin)` — parse stdin as a JSON document;
2. `data["echoed_by"] = "python"` — dict item assignment (a `TypeError`
   when the parsed value is not a dict);
3. `data["ts"] = int(time.time())` — one wall-clock read, truncated to an
   integer, then dict item assignment;
4. `json.dump(data, sys.stdout)` — serialize to stdout, no trailing newline.

An uncaught exception terminates the CPython process with exit status 1 and
nothing has been written to stdout at that point, since `json.dump` only runs
after both assignments succeed.

We embed the JSON documents, the dict-assignment semantics, the serializer
(`json.dump` with its default arguments), and the whole pipeline as a function
of the parse outcome and of the wall clock.
-/

namespace Echo

/-- A JSON document, as produced by `json.load`: `null`, booleans, numbers,
strings, arrays, and objects, an object being a finite ordered mapping from
string keys to JSON values (a CPython `dict` preserves insertion order, and
parsing can never produce duplicate keys). Numbers are modelled as integers. -/
inductive Json : Type where
  | null : Json
  | bool : Bool → Json
  | num : Int → Json
  | str : String → Json
  | arr : List Json → Json
  | obj : List (String × Json) → Json

/-- The string the script stores under `echoed_by` (line 17 of `src/echo.py`). -/
def IMPL_NAME : String := "python"

/-- Whether the association list of an object holds key `k`. -/
def hasKey (kvs : List (String × Json)) (k : String) : Bool :=
  kvs.any (fun p => p.1 == k)

/-- CPython dict item assignment `d[k] = v` on the entry list of a dict:
if `k` is already present its entry is updated in place (keeping its
position), otherwise `(k, v)` is appended at the end (insertion order). -/
def setKeyList (kvs : List (String × Json)) (k : String) (v : Json) :
    List (String × Json) :=
  if hasKey kvs k then
    kvs.map (fun p => if p.1 = k then (k, v) else p)
  else
    kvs ++ [(k, v)]

/-- First value stored under key `k`, i.e. what `d[k]` would read. -/
def lookupKey : List (String × Json) → String → Option Json
  | [], _ => none
  | p :: rest, k => if p.1 = k then some p.2 else lookupKey rest k

/-- The key sequence of an object, in insertion order. -/
def keys (kvs : List (String × Json)) : List String :=
  kvs.map Prod.fst

/-- The two exceptions the script can die of: `json.JSONDecodeError` raised by
`json.load` on malformed input, and `TypeError` raised by item assignment on a
non-dict value. Both are uncaught. -/
inductive PyError : Type where
  | parseError : PyError
  | typeError : PyError
deriving DecidableEq

/-- Whether a parsed JSON value is an object (a CPython `dict`). -/
def Json.isObj : Json → Bool
  | .obj _ => true
  | _ => false

/-- Python item assignment `data[k] = v` (lines 17 and 18 of `src/echo.py`):
succeeds exactly on dicts, raises `TypeError` on every other JSON value
(list, str, int, float, bool, NoneType). -/
def setItem : Json → String → Json → Except PyError Json
  | .obj kvs, k, v => .ok (.obj (setKeyList kvs k v))
  | _, _, _ => .error .typeError

/-- Python `int(x)` applied to the float returned by `time.time()`:
truncation toward zero. The reading is modelled as a rational number of
seconds since the Unix epoch. -/
def pyInt (q : ℚ) : Int := q.num.tdiv q.den

/-- The annotation step of `main`, lines 17–18 of `src/echo.py`, with the
already-truncated timestamp `now`: set `echoed_by`, then set `ts`. -/
def annotate (data : Json) (now : Int) : Except PyError Json :=
  match setItem data "echoed_by" (.str IMPL_NAME) with
  | .error e => .error e
  | .ok d1 => setItem d1 "ts" (.num now)

/-- The entry list of the annotated object, when the input is the object with
entries `kvs`: both assignments of lines 17–18 applied in order. -/
def annotateObj (kvs : List (String × Json)) (now : Int) :
    List (String × Json) :=
  setKeyList (setKeyList kvs "echoed_by" (.str IMPL_NAME)) "ts" (.num now)

/-- Hexadecimal digit, lowercase, as in CPython's `\uXXXX` escapes. -/
def hexDigit (n : Nat) : Char := Nat.digitChar n

/-- Four lowercase hex digits, the `XXXX` of a `\uXXXX` escape. -/
def hex4 (n : Nat) : String :=
  String.mk [hexDigit (n / 4096 % 16), hexDigit (n / 256 % 16),
    hexDigit (n / 16 % 16), hexDigit (n % 16)]

/-- How `json.dump` with its default `ensure_ascii=True` renders one character
of a string: `"` and `\` are backslash-escaped, the control characters get
their short escapes (`\n`, `\t`, `\r`, `\b`, `\f`) or `\uXXXX`, characters
outside printable ASCII get `\uXXXX` (a surrogate pair beyond the BMP), and
every other character stands for itself. -/
def escapeChar (c : Char) : String :=
  if c = '"' then "\\\""
  else if c = '\\' then "\\\\"
  else if c = '\n' then "\\n"
  else if c = '\t' then "\\t"
  else if c = '\r' then "\\r"
  else if c.toNat = 8 then "\\b"
  else if c.toNat = 12 then "\\f"
  else if c.toNat < 32 || 126 < c.toNat then
    if c.toNat < 65536 then "\\u" ++ hex4 c.toNat
    else
      let n := c.toNat - 65536
      "\\u" ++ hex4 (55296 + n / 1024) ++ "\\u" ++ hex4 (56320 + n % 1024)
  else String.singleton c

/-- A JSON string literal as `json.dump` writes it: double quotes around the
escaped characters. -/
def quoteStr (s : String) : String :=
  "\"" ++ String.join (s.data.map escapeChar) ++ "\""

mutual

/-- `json.dump(data, sys.stdout)` with default arguments (line 19 of
`src/echo.py`): item separator `", "`, key separator `": "`, no indent, no
trailing newline; `\x7b`/`\x7d` are the literal braces around an object. -/
def dump : Json → String
  | .null => "null"
  | .bool b => if b then "true" else "false"
  | .num n => toString n
  | .str s => quoteStr s
  | .arr xs => "[" ++ dumpElems xs ++ "]"
  | .obj kvs => "\x7b" ++ dumpMembers kvs ++ "\x7d"

/-- The comma-separated rendering of an array's elements. -/
def dumpElems : List Json → String
  | [] => ""
  | [x] => dump x
  | x :: y :: xs => dump x ++ ", " ++ dumpElems (y :: xs)

/-- The comma-separated rendering of an object's `"key": value` members. -/
def dumpMembers : List (String × Json) → String
  | [] => ""
  | [(k, v)] => quoteStr k ++ ": " ++ dump v
  | (k, v) :: m :: kvs => quoteStr k ++ ": " ++ dump v ++ ", " ++ dumpMembers (m :: kvs)

end

/-- The observable outcome of one run of the process: its exit status, the
bytes it wrote to standard output, and how many times it read the wall clock.
CPython exits with status 1 on an uncaught exception and 0 when `main`
returns normally. -/
structure ProcOutcome : Type where
  exitCode : Nat
  stdout : String
  clockReads : Nat
deriving DecidableEq

/-- The whole of `main` (lines 15–19 of `src/echo.py`), as a function of the
outcome of `json.load` on stdin (`json.load` is the C Python standard
library; the embedding takes its result: either a `JSONDecodeError` or the
parsed document) and of the wall clock, a stream of readings of which
`time.time()` yields the next one. An uncaught exception stops the run with
exit status 1 before anything is written to stdout; the clock is read once,
at line 18, only after line 17 succeeded. -/
def main (parsed : Except PyError Json) (clock : ℕ → ℚ) : ProcOutcome :=
  match parsed with
  | .error _ => ⟨1, "", 0⟩
  | .ok data =>
    match setItem data "echoed_by" (.str IMPL_NAME) with
    | .error _ => ⟨1, "", 0⟩
    | .ok d1 =>
      match setItem d1 "ts" (.num (pyInt (clock 0))) with
      | .error _ => ⟨1, "", 1⟩
      | .ok d2 => ⟨0, dump d2, 1⟩

/-- One typed parameter declaration of the metadata header: a name and a
type tag (both are `json` in `src/echo.py`). -/
structure ParamDecl : Type where
  name : String
  type : String

/-- The shape of the `---DOC---` metadata block at the top of the source file
(lines 1–12 of `src/echo.py`): an object name, a source-language label, a
human-readable summary, an invocation convention, an entry symbol name, a
timeout in milliseconds, and typed input/output parameter declarations. -/
structure DocMetadata : Type where
  object : String
  language : String
  summary : String
  entry : String
  mainSymbol : String
  timeout_ms : Nat
  inputs : List ParamDecl
  outputs : List ParamDecl

/-- The concrete metadata block embedded in `src/echo.py`. -/
def echoMetadata : DocMetadata :=
  { object := "demo.echo_python"
    language := "python"
    summary := "Echoes a JSON object with an added timestamp."
    entry := "stdio-json"
    mainSymbol := "main"
    timeout_ms := 2000
    inputs := [⟨"in", "json"⟩]
    outputs := [⟨"out", "json"⟩] }

/-- Modelled from the spec: the orchestrating harness that consumes the
`---DOC---` header is not part of this repository's source; per the spec the
header "is treated as inert documentation, not parsed or enforced by the
script itself" and "carries no runtime behavior", so an invocation under any
metadata block is exactly a run of `main`. -/
def runWithHeader (m : DocMetadata) (parsed : Except PyError Json)
    (clock : ℕ → ℚ) : ProcOutcome :=
  main parsed clock

/-! Helper lemmas about the dict operations. -/

theorem keys_cons (p : String × Json) (rest : List (String × Json)) :
    keys (p :: rest) = p.1 :: keys rest := rfl

theorem hasKey_iff_mem_keys (kvs : List (String × Json)) (k : String) :
    hasKey kvs k = true ↔ k ∈ keys kvs := by
  simp [hasKey, keys, beq_iff_eq]

theorem hasKey_eq_false_iff (kvs : List (String × Json)) (k : String) :
    hasKey kvs k = false ↔ k ∉ keys kvs := by
  simp [← hasKey_iff_mem_keys]

theorem lookupKey_eq_none_of_not_mem (kvs : List (String × Json)) (k : String)
    (h : k ∉ keys kvs) : lookupKey kvs k = none := by
  induction kvs with
  | nil => rfl
  | cons p rest ih =>
    rw [keys_cons, List.mem_cons] at h
    push_neg at h
    simp only [lookupKey]
    rw [if_neg (fun hpk : p.1 = k => h.1 hpk.symm)]
    exact ih h.2

theorem lookupKey_append (l₁ l₂ : List (String × Json)) (k : String)
    (h : lookupKey l₁ k = none) : lookupKey (l₁ ++ l₂) k = lookupKey l₂ k := by
  induction l₁ with
  | nil => rfl
  | cons p rest ih =>
    simp only [lookupKey] at h
    by_cases hp : p.1 = k
    · rw [if_pos hp] at h
      exact absurd h (by simp)
    · rw [if_neg hp] at h
      simp only [List.cons_append, lookupKey]
      rw [if_neg hp]
      exact ih h

theorem lookupKey_append_single_ne (kvs : List (String × Json)) (k k' : String)
    (v : Json) (hne : k' ≠ k) :
    lookupKey (kvs ++ [(k, v)]) k' = lookupKey kvs k' := by
  induction kvs with
  | nil =>
    simp only [List.nil_append, lookupKey]
    rw [if_neg (fun he : (k, v).1 = k' => hne he.symm)]
  | cons p rest ih =>
    simp only [List.cons_append, lookupKey]
    by_cases hp : p.1 = k'
    · rw [if_pos hp, if_pos hp]
    · rw [if_neg hp, if_neg hp]
      exact ih

theorem lookupKey_replace_self (kvs : List (String × Json)) (k : String) (v : Json)
    (h : k ∈ keys kvs) :
    lookupKey (kvs.map fun p => if p.1 = k then (k, v) else p) k = some v := by
  induction kvs with
  | nil => simp [keys] at h
  | cons p rest ih =>
    by_cases hp : p.1 = k
    · simp only [List.map_cons, if_pos hp, lookupKey]
      simp
    · rw [keys_cons, List.mem_cons] at h
      have hk : k ∈ keys rest := h.resolve_left (fun he => hp he.symm)
      simp only [List.map_cons, if_neg hp, lookupKey]
      exact ih hk

theorem lookupKey_replace_ne (kvs : List (String × Json)) (k k' : String) (v : Json)
    (hne : k' ≠ k) :
    lookupKey (kvs.map fun p => if p.1 = k then (k, v) else p) k' =
      lookupKey kvs k' := by
  induction kvs with
  | nil => rfl
  | cons p rest ih =>
    by_cases hp : p.1 = k
    · simp only [List.map_cons, if_pos hp, lookupKey]
      rw [if_neg (fun he : (k, v).1 = k' => hne he.symm),
        if_neg (fun he : p.1 = k' => hne (he ▸ hp))]
      exact ih
    · simp only [List.map_cons, if_neg hp, lookupKey]
      by_cases hp' : p.1 = k'
      · rw [if_pos hp', if_pos hp']
      · rw [if_neg hp', if_neg hp']
        exact ih

theorem lookupKey_setKeyList_self (kvs : List (String × Json)) (k : String) (v : Json) :
    lookupKey (setKeyList kvs k v) k = some v := by
  unfold setKeyList
  by_cases h : hasKey kvs k
  · rw [if_pos h]
    exact lookupKey_replace_self kvs k v ((hasKey_iff_mem_keys kvs k).mp h)
  · rw [if_neg h]
    have hnm : k ∉ keys kvs :=
      (hasKey_eq_false_iff kvs k).mp (Bool.eq_false_iff.mpr (fun he => h he))
    rw [lookupKey_append _ _ _ (lookupKey_eq_none_of_not_mem kvs k hnm)]
    simp [lookupKey]

theorem lookupKey_setKeyList_ne (kvs : List (String × Json)) (k k' : String) (v : Json)
    (hne : k' ≠ k) :
    lookupKey (setKeyList kvs k v) k' = lookupKey kvs k' := by
  unfold setKeyList
  by_cases h : hasKey kvs k
  · rw [if_pos h]
    exact lookupKey_replace_ne kvs k k' v hne
  · rw [if_neg h]
    exact lookupKey_append_single_ne kvs k k' v hne

theorem keys_replace (kvs : List (String × Json)) (k : String) (v : Json) :
    keys (kvs.map fun p => if p.1 = k then (k, v) else p) = keys kvs := by
  induction kvs with
  | nil => rfl
  | cons p rest ih =>
    by_cases hp : p.1 = k
    · subst hp
      simp [keys_cons, ih]
    · simp only [List.map_cons, if_neg hp, keys_cons, ih]

theorem mem_keys_setKeyList (kvs : List (String × Json)) (k k' : String) (v : Json) :
    k' ∈ keys (setKeyList kvs k v) ↔ k' ∈ keys kvs ∨ k' = k := by
  unfold setKeyList
  by_cases h : hasKey kvs k
  · rw [if_pos h, keys_replace]
    constructor
    · exact Or.inl
    · rintro (hm | rfl)
      · exact hm
      · exact (hasKey_iff_mem_keys kvs k').mp h
  · rw [if_neg h]
    simp [keys, eq_comm]

theorem mem_setKeyList_value (kvs : List (String × Json)) (k : String) (v : Json)
    (p : String × Json) (hp : p ∈ setKeyList kvs k v) (hk : p.1 = k) : p.2 = v := by
  unfold setKeyList at hp
  by_cases h : hasKey kvs k
  · rw [if_pos h] at hp
    obtain ⟨q, hqmem, hq⟩ := List.mem_map.mp hp
    by_cases hqk : q.1 = k
    · rw [if_pos hqk] at hq
      rw [← hq]
    · rw [if_neg hqk] at hq
      rw [← hq] at hk
      exact absurd hk hqk
  · rw [if_neg h] at hp
    rcases List.mem_append.mp hp with hmem | hmem
    · have hnm : k ∉ keys kvs :=
        (hasKey_eq_false_iff kvs k).mp (Bool.eq_false_iff.mpr (fun he => h he))
      have : p.1 ∈ keys kvs := List.mem_map_of_mem Prod.fst hmem
      rw [hk] at this
      exact absurd this hnm
    · rcases List.mem_singleton.mp hmem with rfl
      rfl

theorem mem_setKeyList_of_key_ne (kvs : List (String × Json)) (k : String) (v : Json)
    (p : String × Json) (hp : p ∈ setKeyList kvs k v) (hk : p.1 ≠ k) : p ∈ kvs := by
  unfold setKeyList at hp
  by_cases h : hasKey kvs k
  · rw [if_pos h] at hp
    obtain ⟨q, hqmem, hq⟩ := List.mem_map.mp hp
    by_cases hqk : q.1 = k
    · rw [if_pos hqk] at hq
      rw [← hq] at hk
      exact absurd rfl hk
    · rw [if_neg hqk] at hq
      rw [← hq]
      exact hqmem
  · rw [if_neg h] at hp
    rcases List.mem_append.mp hp with hmem | hmem
    · exact hmem
    · rcases List.mem_singleton.mp hmem with rfl
      exact absurd rfl hk

theorem setKeyList_of_not_hasKey (kvs : List (String × Json)) (k : String) (v : Json)
    (h : hasKey kvs k = false) : setKeyList kvs k v = kvs ++ [(k, v)] := by
  unfold setKeyList
  rw [if_neg (by simp [h])]

theorem annotate_obj_eq (kvs : List (String × Json)) (now : Int) :
    annotate (.obj kvs) now = .ok (.obj (annotateObj kvs now)) := rfl

theorem main_obj_eq (kvs : List (String × Json)) (clock : ℕ → ℚ) :
    main (.ok (.obj kvs)) clock =
      ⟨0, dump (.obj (annotateObj kvs (pyInt (clock 0)))), 1⟩ := rfl

theorem setItem_non_obj (j : Json) (k : String) (v : Json) (hj : j.isObj = false) :
    setItem j k v = .error .typeError := by
  cases j <;> first | rfl | simp [Json.isObj] at hj

theorem main_non_obj (j : Json) (clock : ℕ → ℚ) (hj : j.isObj = false) :
    main (.ok j) clock = ⟨1, "", 0⟩ := by
  cases j <;> first | rfl | simp [Json.isObj] at hj

theorem pyInt_eq_floor (q : ℚ) (hq : 0 ≤ q) : pyInt q = ⌊q⌋ := by
  rw [Rat.floor_def]
  exact Int.tdiv_eq_ediv (Rat.num_nonneg.mpr hq) (Int.natCast_nonneg q.den)

theorem dump_obj_data (kvs : List (String × Json)) :
    (dump (.obj kvs)).data =
      Char.ofNat 123 :: ((dumpMembers kvs).data ++ [Char.ofNat 125]) := by
  simp only [dump]
  rw [String.data_append, String.data_append]
  rfl

/-! The claims. -/

/-- C1: for every JSON object holding neither an `echoed_by` nor a `ts` key,
the processor produces exactly that object extended with `echoed_by` bound to
the implementation name `"python"` and `ts` bound to the integer timestamp —
in particular the empty object becomes the object with exactly those two
keys, in that order. -/
theorem annotate_fresh_object_extends (kvs : List (String × Json)) (now : Int)
    (h1 : hasKey kvs "echoed_by" = false) (h2 : hasKey kvs "ts" = false) :
    annotate (.obj kvs) now =
      .ok (.obj (kvs ++ [("echoed_by", .str IMPL_NAME), ("ts", .num now)])) := by
  have h2' : kvs.any (fun p => p.1 == "ts") = false := h2
  have hts : hasKey (kvs ++ [("echoed_by", Json.str IMPL_NAME)]) "ts" = false := by
    simp [hasKey, h2']
  rw [annotate_obj_eq]
  unfold annotateObj
  rw [setKeyList_of_not_hasKey _ _ _ h1, setKeyList_of_not_hasKey _ _ _ hts,
    List.append_assoc]
  rfl

theorem annotate_fresh_object_extends_witness :
    hasKey [] "echoed_by" = false ∧
    annotate (.obj []) 5 =
      .ok (.obj [("echoed_by", .str IMPL_NAME), ("ts", .num 5)]) :=
  ⟨rfl, annotate_fresh_object_extends [] 5 rfl rfl⟩

/-- C2: for every JSON object input the run succeeds and the output is that
object with exactly the keys `echoed_by` and `ts` added or overwritten: both
read back with the new values, every other key reads back with its input
value unchanged, and a key occurs in the output exactly when it occurs in the
input or is one of the two. -/
theorem annotate_frame (kvs : List (String × Json)) (now : Int) (k : String)
    (h1 : k ≠ "echoed_by") (h2 : k ≠ "ts") :
    annotate (.obj kvs) now = .ok (.obj (annotateObj kvs now)) ∧
    lookupKey (annotateObj kvs now) "echoed_by" = some (.str IMPL_NAME) ∧
    lookupKey (annotateObj kvs now) "ts" = some (.num now) ∧
    lookupKey (annotateObj kvs now) k = lookupKey kvs k ∧
    (∀ k', k' ∈ keys (annotateObj kvs now) ↔
      k' ∈ keys kvs ∨ k' = "echoed_by" ∨ k' = "ts") := by
  refine ⟨annotate_obj_eq kvs now, ?_, ?_, ?_, ?_⟩
  · show lookupKey
      (setKeyList (setKeyList kvs "echoed_by" (.str IMPL_NAME)) "ts" (.num now))
      "echoed_by" = _
    rw [lookupKey_setKeyList_ne _ _ _ _ (by decide)]
    exact lookupKey_setKeyList_self _ _ _
  · exact lookupKey_setKeyList_self _ _ _
  · show lookupKey
      (setKeyList (setKeyList kvs "echoed_by" (.str IMPL_NAME)) "ts" (.num now))
      k = _
    rw [lookupKey_setKeyList_ne _ _ _ _ h2, lookupKey_setKeyList_ne _ _ _ _ h1]
  · intro k'
    show k' ∈ keys
      (setKeyList (setKeyList kvs "echoed_by" (.str IMPL_NAME)) "ts" (.num now)) ↔ _
    rw [mem_keys_setKeyList, mem_keys_setKeyList, or_assoc]

theorem annotate_frame_witness :
    annotate (.obj [("a", .num 1)]) 7 = .ok (.obj (annotateObj [("a", .num 1)] 7)) ∧
    lookupKey (annotateObj [("a", .num 1)] 7) "echoed_by" = some (.str IMPL_NAME) ∧
    lookupKey (annotateObj [("a", .num 1)] 7) "ts" = some (.num 7) ∧
    lookupKey (annotateObj [("a", .num 1)] 7) "a" = lookupKey [("a", .num 1)] "a" ∧
    annotateObj [("a", .num 1)] 7 =
      [("a", .num 1), ("echoed_by", .str IMPL_NAME), ("ts", .num 7)] := by
  obtain ⟨ha, hb, hc, hd, _⟩ :=
    annotate_frame [("a", .num 1)] 7 "a" (by decide) (by decide)
  exact ⟨ha, hb, hc, hd, rfl⟩

/-- C3: for every JSON object input that already holds an `echoed_by` or a
`ts` key, those keys are overwritten: they read back with the new values, and
any entry of the output carrying one of the two keys carries the new value,
so the old values are gone from the output. -/
theorem annotate_overwrites (kvs : List (String × Json)) (now : Int)
    (h : hasKey kvs "echoed_by" = true ∨ hasKey kvs "ts" = true) :
    lookupKey (annotateObj kvs now) "echoed_by" = some (.str IMPL_NAME) ∧
    lookupKey (annotateObj kvs now) "ts" = some (.num now) ∧
    (∀ v, ("echoed_by", v) ∈ annotateObj kvs now → v = .str IMPL_NAME) ∧
    (∀ v, ("ts", v) ∈ annotateObj kvs now → v = .num now) := by
  refine ⟨?_, ?_, ?_, ?_⟩
  · show lookupKey
      (setKeyList (setKeyList kvs "echoed_by" (.str IMPL_NAME)) "ts" (.num now))
      "echoed_by" = _
    rw [lookupKey_setKeyList_ne _ _ _ _ (by decide)]
    exact lookupKey_setKeyList_self _ _ _
  · exact lookupKey_setKeyList_self _ _ _
  · intro v hv
    have hv' : ("echoed_by", v) ∈ setKeyList kvs "echoed_by" (.str IMPL_NAME) :=
      mem_setKeyList_of_key_ne _ "ts" (.num now) _ hv
        (show ("echoed_by" : String) ≠ "ts" by decide)
    exact mem_setKeyList_value _ _ _ _ hv' rfl
  · intro v hv
    exact mem_setKeyList_value _ _ _ _ hv rfl

theorem annotate_overwrites_witness :
    hasKey [("echoed_by", .str "old")] "echoed_by" = true ∧
    lookupKey (annotateObj [("echoed_by", .str "old")] 9) "echoed_by" =
      some (.str IMPL_NAME) ∧
    lookupKey (annotateObj [("echoed_by", .str "old")] 9) "ts" = some (.num 9) ∧
    annotateObj [("echoed_by", .str "old")] 9 =
      [("echoed_by", .str IMPL_NAME), ("ts", .num 9)] := by
  obtain ⟨ha, hb, _, _⟩ := annotate_overwrites [("echoed_by", .str "old")] 9 (Or.inl rfl)
  exact ⟨rfl, ha, hb, rfl⟩

/-- C4: when `json.load` fails on malformed input, the uncaught
`JSONDecodeError` terminates the process with exit status 1 — non-zero — and
standard output holds nothing at all, hence no valid JSON. -/
theorem parse_failure_exits_nonzero (clock : ℕ → ℚ) :
    main (.error .parseError) clock = ⟨1, "", 0⟩ ∧
    (main (.error .parseError) clock).exitCode ≠ 0 ∧
    (main (.error .parseError) clock).stdout = "" :=
  ⟨rfl, Nat.one_ne_zero, rfl⟩

/-- C5: for every parsed JSON value that is not an object — a list, a string,
a number, a boolean or null — the item assignment of line 17 raises
`TypeError`, which is uncaught, so the process exits with status 1. -/
theorem non_object_exits_nonzero (j : Json) (clock : ℕ → ℚ)
    (hj : j.isObj = false) :
    setItem j "echoed_by" (.str IMPL_NAME) = .error .typeError ∧
    main (.ok j) clock = ⟨1, "", 0⟩ ∧
    (main (.ok j) clock).exitCode ≠ 0 :=
  ⟨setItem_non_obj j "echoed_by" (.str IMPL_NAME) hj, main_non_obj j clock hj,
    by rw [main_non_obj j clock hj]; decide⟩

theorem non_object_exits_nonzero_witness :
    setItem (.arr [.num 1, .num 2, .num 3]) "echoed_by" (.str IMPL_NAME) =
      .error .typeError ∧
    main (.ok (.arr [.num 1, .num 2, .num 3])) (fun _ => 0) = ⟨1, "", 0⟩ ∧
    (main (.ok (.arr [.num 1, .num 2, .num 3])) (fun _ => 0)).exitCode ≠ 0 :=
  non_object_exits_nonzero (.arr [.num 1, .num 2, .num 3]) (fun _ => 0) rfl

/-- C6: the metadata block is inert — a run under any metadata block, the
embedded `echoMetadata` included, is exactly a run of `main`, so the block
carries no runtime behavior — and for every well-formed JSON object input the
process runs to completion with exit status zero. -/
theorem metadata_inert_object_input_succeeds (m : DocMetadata)
    (kvs : List (String × Json)) (clock : ℕ → ℚ) :
    runWithHeader m (.ok (.obj kvs)) clock = main (.ok (.obj kvs)) clock ∧
    runWithHeader echoMetadata (.ok (.obj kvs)) clock = main (.ok (.obj kvs)) clock ∧
    (runWithHeader m (.ok (.obj kvs)) clock).exitCode = 0 := by
  refine ⟨rfl, rfl, ?_⟩
  show (main (.ok (.obj kvs)) clock).exitCode = 0
  rw [main_obj_eq]

/-- C7: on success the value under `ts` is the wall-clock reading truncated
to an integer — for the (always nonnegative) epoch readings this is the floor,
the whole seconds elapsed since the Unix epoch — and the clock is read exactly
once: the read counter is 1 and the outcome depends on no reading but the
first. -/
theorem ts_is_truncated_single_clock_read (kvs : List (String × Json))
    (clock : ℕ → ℚ) :
    (main (.ok (.obj kvs)) clock).clockReads = 1 ∧
    lookupKey (annotateObj kvs (pyInt (clock 0))) "ts" =
      some (.num (pyInt (clock 0))) ∧
    (0 ≤ clock 0 → pyInt (clock 0) = ⌊clock 0⌋) ∧
    (∀ c2 : ℕ → ℚ, c2 0 = clock 0 →
      main (.ok (.obj kvs)) c2 = main (.ok (.obj kvs)) clock) := by
  refine ⟨?_, lookupKey_setKeyList_self _ _ _, pyInt_eq_floor (clock 0), ?_⟩
  · rw [main_obj_eq]
  · intro c2 h
    rw [main_obj_eq, main_obj_eq, h]

theorem ts_is_truncated_single_clock_read_witness :
    (main (.ok (.obj [])) (fun _ => 3)).clockReads = 1 ∧
    pyInt 3 = ⌊(3 : ℚ)⌋ := by
  obtain ⟨h1, _, h3, _⟩ := ts_is_truncated_single_clock_read [] (fun _ => 3)
  exact ⟨h1, h3 (by norm_num)⟩

/-- C8: two successful runs on the identical object input, under possibly
different clocks, both exit 0 and their output objects agree on `echoed_by`
and on every key other than `ts`; and the transform is deterministic in the
input and the observed clock value: equal readings give equal outcomes. -/
theorem runs_agree_on_all_but_ts (kvs : List (String × Json)) (c1 c2 : ℕ → ℚ)
    (k : String) (hk : k ≠ "ts") :
    (main (.ok (.obj kvs)) c1).exitCode = 0 ∧
    (main (.ok (.obj kvs)) c2).exitCode = 0 ∧
    lookupKey (annotateObj kvs (pyInt (c1 0))) "echoed_by" =
      lookupKey (annotateObj kvs (pyInt (c2 0))) "echoed_by" ∧
    lookupKey (annotateObj kvs (pyInt (c1 0))) k =
      lookupKey (annotateObj kvs (pyInt (c2 0))) k ∧
    (c1 0 = c2 0 → main (.ok (.obj kvs)) c1 = main (.ok (.obj kvs)) c2) := by
  have agree : ∀ (k' : String), k' ≠ "ts" →
      lookupKey (annotateObj kvs (pyInt (c1 0))) k' =
        lookupKey (annotateObj kvs (pyInt (c2 0))) k' := by
    intro k' hk'
    show lookupKey (setKeyList (setKeyList kvs "echoed_by" (.str IMPL_NAME))
      "ts" (.num (pyInt (c1 0)))) k' = _
    rw [lookupKey_setKeyList_ne _ _ _ _ hk']
    show _ = lookupKey (setKeyList (setKeyList kvs "echoed_by" (.str IMPL_NAME))
      "ts" (.num (pyInt (c2 0)))) k'
    rw [lookupKey_setKeyList_ne _ _ _ _ hk']
  refine ⟨by rw [main_obj_eq], by rw [main_obj_eq],
    agree "echoed_by" (by decide), agree k hk, ?_⟩
  intro h
  rw [main_obj_eq, main_obj_eq, h]

theorem runs_agree_on_all_but_ts_witness :
    lookupKey (annotateObj [("a", .num 1)] (pyInt 1)) "echoed_by" =
      lookupKey (annotateObj [("a", .num 1)] (pyInt 2)) "echoed_by" ∧
    lookupKey (annotateObj [("a", .num 1)] (pyInt 1)) "a" =
      lookupKey (annotateObj [("a", .num 1)] (pyInt 2)) "a" := by
  obtain ⟨_, _, h3, h4, _⟩ :=
    runs_agree_on_all_but_ts [("a", .num 1)] (fun _ => 1) (fun _ => 2) "a" (by decide)
  exact ⟨h3, h4⟩

/-- C9: on an object input the run succeeds and the bytes on standard output
are exactly the `json.dump` serialization of the resulting object, with no
framing: the text starts with the opening brace of the object, its last
character is the closing brace, and in particular it does not end in a
newline. -/
theorem stdout_is_exact_serialization (kvs : List (String × Json))
    (clock : ℕ → ℚ) :
    (main (.ok (.obj kvs)) clock).exitCode = 0 ∧
    (main (.ok (.obj kvs)) clock).stdout =
      dump (.obj (annotateObj kvs (pyInt (clock 0)))) ∧
    (main (.ok (.obj kvs)) clock).stdout.data.head? = some (Char.ofNat 123) ∧
    (main (.ok (.obj kvs)) clock).stdout.data.getLast? = some (Char.ofNat 125) ∧
    (main (.ok (.obj kvs)) clock).stdout.data.getLast? ≠ some (Char.ofNat 10) := by
  have hd := dump_obj_data (annotateObj kvs (pyInt (clock 0)))
  have hlast : (dump (.obj (annotateObj kvs (pyInt (clock 0))))).data.getLast? =
      some (Char.ofNat 125) := by
    rw [hd]
    show ((Char.ofNat 123 :: (dumpMembers (annotateObj kvs (pyInt (clock 0)))).data)
      ++ [Char.ofNat 125]).getLast? = _
    exact List.getLast?_concat _
  rw [main_obj_eq]
  refine ⟨rfl, rfl, ?_, ?_, ?_⟩
  · show (dump (.obj (annotateObj kvs (pyInt (clock 0))))).data.head? = _
    rw [hd]
    rfl
  · exact hlast
  · show (dump (.obj (annotateObj kvs (pyInt (clock 0))))).data.getLast? ≠ _
    rw [hlast]
    decide

/-- C10: on every failing run — a parse error, or a parsed value that is not
an object — standard output is exactly empty and the exit status is non-zero:
the fault is raised before `json.dump` ever runs. -/
theorem failing_runs_write_nothing (parsed : Except PyError Json)
    (clock : ℕ → ℚ) (h : ∀ j, parsed = .ok j → j.isObj = false) :
    (main parsed clock).stdout = "" ∧ (main parsed clock).exitCode ≠ 0 := by
  cases parsed with
  | error e => exact ⟨rfl, Nat.one_ne_zero⟩
  | ok j =>
    rw [main_non_obj j clock (h j rfl)]
    exact ⟨rfl, by decide⟩

theorem failing_runs_write_nothing_witness :
    (main (.error .parseError) (fun _ => 0)).stdout = "" ∧
    (main (.error .parseError) (fun _ => 0)).exitCode ≠ 0 :=
  failing_runs_write_nothing (.error .parseError) (fun _ => 0)
    (fun j h => by cases h)

end Echo
